import Mathlib

/-!
Shallow embedding of `car.py`, a minimal remote-control client for a
camera-equipped vehicle.  The script wires a websocket client to a video
capture: module-level constants build the two addresses, four callbacks
handle socket events, and `on_open` spawns one background thread whose
`run` function opens the capture, reads one frame (accessing its shape
unconditionally), then loops forever reading a frame and sending a fixed
JSON command string.

The embedding is an effect-trace semantics: every externally visible
action of the script (printing, sending on the socket, reading a frame,
opening the capture, starting a thread, establishing the connection,
raising an exception) is a constructor of `Effect`, and each piece of the
script is a pure function from its inputs to the list of effects it
performs, in program order.  The video source is modelled as a stream
`Nat → Bool × Option Frame` of `cap.read()` results (`None` models a
failed read, as cv2 returns `(False, None)`), and the unbounded `while
True` loop is observed through its first `n` iterations for arbitrary `n`.
-/

namespace Car

/-- A captured video frame: a numpy array with a `shape` tuple and pixel
data.  Only `shape[0]` and `shape[1]` are ever accessed by the script;
`data` carries the frame content so that independence from it is a
meaningful statement. -/
structure Frame where
  shape : List Nat
  data : List Nat
deriving DecidableEq

/-- Result of one `cap.read()` call: the success flag and the frame
(`none` models cv2 returning `None` on a failed read). -/
abbrev ReadResult := Bool × Option Frame

/-- The stream of successive `cap.read()` results offered by the video
source: reading the k-th time yields `input k`. -/
abbrev VideoInput := Nat → ReadResult

/-- The websocket handle passed to every callback.  The script never
inspects it (it only calls `ws.send`, modelled as an effect), so it
carries no data. -/
abbrev WS := Unit

/-- Externally visible actions of the script, in program order. -/
inductive Effect where
  | printed (s : String)
  | sent (s : String)
  | readFrame (ret : Bool) (frame : Option Frame)
  | capOpened (addr : String)
  | capReleased
  | wsClosed
  | connected (addr : String)
  | threadStarted
  | traceEnabled
  | raisedAttrError
  | raisedIndexError
deriving DecidableEq

/-- Events delivered by the websocket server to the client, dispatched by
`run_forever` to the four callbacks. -/
inductive ServerEvent where
  | opened
  | message (s : String)
  | error (s : String)
  | closed (code : Option Nat) (msg : Option String)
deriving DecidableEq

/-- `host = "donkeycar"` (car.py line 6). -/
def host : String := "donkeycar"

/-- `port = 8887` (car.py line 7). -/
def port : Nat := 8887

/-- `socket_address = f"ws://{host}:{port}/wsDrive"` (car.py line 9). -/
def socket_address : String := "ws://" ++ host ++ ":" ++ toString port ++ "/wsDrive"

/-- `video_address = f"http://{host}:{port}/video"` (car.py line 10). -/
def video_address : String := "http://" ++ host ++ ":" ++ toString port ++ "/video"

/-- A nonnegative Python float literal with a short decimal value, kept
exactly: the value is `mantissa / 10 ^ exponent`.  The literals `0.0` and
`0.2` of the script are exact in this sense, and CPython's `str` prints
them back as written (shortest round-tripping decimal). -/
structure PyFloat where
  mantissa : Nat
  exponent : Nat
deriving DecidableEq

/-- Decimal literals such as `0.2` denote `mantissa / 10 ^ exponent`. -/
instance : OfScientific PyFloat where
  ofScientific m s e := if s then ⟨m, e⟩ else ⟨m * 10 ^ e, 0⟩

/-- Python `str` of such a float: integer part, a point, and the
fractional digits with trailing zeros removed, keeping at least one
digit (`str(0.0)` is `"0.0"`). -/
def pyFloatStr (x : PyFloat) : String :=
  let p := 10 ^ x.exponent
  let digits := Nat.toDigits 10 (x.mantissa % p)
  let padded := List.replicate (x.exponent - digits.length) '0' ++ digits
  let frac := (padded.reverse.dropWhile (fun c => c = '0')).reverse
  toString (x.mantissa / p) ++ "." ++ (if frac.isEmpty then "0" else String.mk frac)

/-- `angle = 0.0` (car.py line 37). -/
def angle : PyFloat := 0.0

/-- `throttle = 0.2` (car.py line 38). -/
def throttle : PyFloat := 0.2

/-- The f-string of car.py line 40: literal braces around
`"angle":{angle},"throttle":{throttle},"drive_mode":"user","recording":false`. -/
def commandMessage : String :=
  "\x7b\"angle\":" ++ pyFloatStr angle ++ ",\"throttle\":" ++ pyFloatStr throttle
    ++ ",\"drive_mode\":\"user\",\"recording\":false\x7d"

/-- Effects of the initialisation part of `run` after the capture is
opened (car.py lines 30-32): one `cap.read()`, then `frame.shape[0]` and
`frame.shape[1]` accessed unconditionally.  A `none` frame makes the
attribute access raise (thread dies, second component `none`); a shape
shorter than 2 raises IndexError; otherwise the thread reaches the loop
with `height` and `width` bound. -/
def initRead (r : ReadResult) : List Effect × Option (Nat × Nat) :=
  match r.2 with
  | none => ([Effect.readFrame r.1 none, Effect.raisedAttrError], none)
  | some f =>
    match f.shape[0]?, f.shape[1]? with
    | some h, some w => ([Effect.readFrame r.1 (some f)], some (h, w))
    | _, _ => ([Effect.readFrame r.1 (some f), Effect.raisedIndexError], none)

/-- Effects of one iteration of the `while True` body (car.py lines
35-42): read a frame, assign the two constants, send the f-string
message, print it. -/
def iterEffects (r : ReadResult) : List Effect :=
  [Effect.readFrame r.1 r.2, Effect.sent commandMessage, Effect.printed commandMessage]

/-- Effects of the first `n` iterations of the `while True` loop, the
k-th iteration consuming `input (k + 1)` (read number 0 was consumed by
the initialisation). -/
def loopEffects (input : VideoInput) : Nat → List Effect
  | 0 => []
  | n + 1 => loopEffects input n ++ iterEffects (input (n + 1))

/-- Whether the background thread survives initialisation and enters the
`while True` loop. -/
def loopEntered (input : VideoInput) : Bool :=
  (initRead (input 0)).2.isSome

/-- Effects of the background thread's `run` function (car.py lines
25-42) observed through `n` loop iterations: open the capture at
`video_address`, run the initial read and shape accesses, and if they did
not raise, run the loop body `n` times. -/
def runThread (input : VideoInput) (n : Nat) : List Effect :=
  Effect.capOpened video_address ::
    match initRead (input 0) with
    | (effs, none) => effs
    | (effs, some _) => effs ++ loopEffects input n

/-- `on_message` callback (car.py lines 12-13): print the message. -/
def on_message (ws : WS) (message : String) : List Effect :=
  [Effect.printed message]

/-- `on_error` callback (car.py lines 16-17): print the error. -/
def on_error (ws : WS) (error : String) : List Effect :=
  [Effect.printed error]

/-- `on_close` callback (car.py lines 20-21): print a fixed marker. -/
def on_close (ws : WS) (close_status_code : Option Nat) (close_msg : Option String) :
    List Effect :=
  [Effect.printed "### closed ###"]

/-- `on_open` callback (car.py lines 24-44): start one new thread running
`run`.  The video stream and the number of loop iterations observed are
semantic parameters of the model. -/
def on_open (ws : WS) (input : VideoInput) (fuel : Nat) : List Effect :=
  Effect.threadStarted :: runThread input fuel

/-- Dispatch of one server event to the matching callback, as
`run_forever` does. -/
def handleEvent (input : VideoInput) (fuel : Nat) : ServerEvent → List Effect
  | ServerEvent.opened => on_open () input fuel
  | ServerEvent.message s => on_message () s
  | ServerEvent.error s => on_error () s
  | ServerEvent.closed c m => on_close () c m

/-- Sequential dispatch of a list of server events. -/
def dispatchAll (input : VideoInput) (fuel : Nat) : List ServerEvent → List Effect
  | [] => []
  | ev :: rest => handleEvent input fuel ev ++ dispatchAll input fuel rest

/-- `ws.run_forever()` (car.py line 55): establish the single connection
to `socket_address`, then dispatch the events the server delivers. -/
def run_forever (events : List ServerEvent) (input : VideoInput) (fuel : Nat) :
    List Effect :=
  Effect.connected socket_address :: dispatchAll input fuel events

/-- The `__main__` block (car.py lines 47-55): enable tracing, build the
app with the four callbacks, call `run_forever` once. -/
def mainProgram (events : List ServerEvent) (input : VideoInput) (fuel : Nat) :
    List Effect :=
  Effect.traceEnabled :: run_forever events input fuel

/-- The messages sent over the socket in a trace, in order. -/
def sentOf : Effect → Option String
  | Effect.sent s => some s
  | _ => none

/-- The socket messages of a trace, in order. -/
def sentMessages (t : List Effect) : List String :=
  t.filterMap sentOf

/-- Classifier: a `cap.read()` effect. -/
def Effect.isRead : Effect → Bool
  | Effect.readFrame _ _ => true
  | _ => false

/-- Classifier: a `ws.send` effect. -/
def Effect.isSent : Effect → Bool
  | Effect.sent _ => true
  | _ => false

/-- Classifier: a connection-establishment effect. -/
def Effect.isConnected : Effect → Bool
  | Effect.connected _ => true
  | _ => false

/-- Classifier: a thread-start effect. -/
def Effect.isThreadStart : Effect → Bool
  | Effect.threadStarted => true
  | _ => false

/-- Classifier: an effect touching the video capture or the drive
channel (opening the capture, reading a frame, sending a command). -/
def Effect.isDriveAction : Effect → Bool
  | Effect.capOpened _ => true
  | Effect.readFrame _ _ => true
  | Effect.sent _ => true
  | _ => false

/-- A healthy video source: every read succeeds with a 120x160 RGB
frame. -/
def okFrame : Frame := ⟨[120, 160, 3], [0, 1, 2]⟩

/-- Sample input whose reads all succeed. -/
def goodInput : VideoInput := fun _ => (true, some okFrame)

/-- Sample input agreeing with `goodInput` on the first read but failing
every later read. -/
def goodThenBadInput : VideoInput := fun k =>
  if k = 0 then (true, some okFrame) else (false, none)

/-- Sample input whose first read already fails. -/
def badInput : VideoInput := fun _ => (false, none)

/-! Helper lemmas: the possible shapes of effects in each piece of the
thread trace. -/

lemma mem_initRead_cases {r : ReadResult} {e : Effect} (h : e ∈ (initRead r).1) :
    e = Effect.readFrame r.1 r.2 ∨ e = Effect.raisedAttrError ∨
      e = Effect.raisedIndexError := by
  obtain ⟨b, fr⟩ := r
  cases fr with
  | none =>
    simp only [initRead, List.mem_cons, List.not_mem_nil, or_false] at h
    tauto
  | some f =>
    rcases h0 : f.shape[0]? with _ | v0 <;> rcases h1 : f.shape[1]? with _ | v1 <;>
        simp only [initRead, h0, h1, List.mem_cons, List.not_mem_nil, or_false] at h <;>
      tauto

lemma mem_iterEffects_cases {r : ReadResult} {e : Effect} (h : e ∈ iterEffects r) :
    e = Effect.readFrame r.1 r.2 ∨ e = Effect.sent commandMessage ∨
      e = Effect.printed commandMessage := by
  simp only [iterEffects, List.mem_cons, List.not_mem_nil, or_false] at h
  tauto

lemma mem_loopEffects_cases {input : VideoInput} {n : Nat} {e : Effect}
    (h : e ∈ loopEffects input n) : ∃ i, e ∈ iterEffects (input (i + 1)) := by
  induction n with
  | zero => simp [loopEffects] at h
  | succ n ih =>
    simp only [loopEffects, List.mem_append] at h
    rcases h with h | h
    · exact ih h
    · exact ⟨n, h⟩

lemma mem_runThread_cases {input : VideoInput} {n : Nat} {e : Effect}
    (h : e ∈ runThread input n) :
    e = Effect.capOpened video_address ∨ e ∈ (initRead (input 0)).1 ∨
      ∃ i, e ∈ iterEffects (input (i + 1)) := by
  unfold runThread at h
  rcases hinit : initRead (input 0) with ⟨effs, o⟩
  rw [hinit] at h
  cases o with
  | none =>
    simp only [List.mem_cons] at h
    rcases h with h | h
    · exact Or.inl h
    · exact Or.inr (Or.inl h)
  | some hw =>
    simp only [List.mem_cons, List.mem_append] at h
    rcases h with h | h | h
    · exact Or.inl h
    · exact Or.inr (Or.inl h)
    · exact Or.inr (Or.inr (mem_loopEffects_cases h))

lemma runThread_effect_shapes {input : VideoInput} {n : Nat} {e : Effect}
    (h : e ∈ runThread input n) :
    e = Effect.capOpened video_address ∨ (∃ b o, e = Effect.readFrame b o) ∨
      e = Effect.raisedAttrError ∨ e = Effect.raisedIndexError ∨
      e = Effect.sent commandMessage ∨ e = Effect.printed commandMessage := by
  rcases mem_runThread_cases h with h | h | ⟨i, h⟩
  · tauto
  · rcases mem_initRead_cases h with h | h | h
    · exact Or.inr (Or.inl ⟨_, _, h⟩)
    · tauto
    · tauto
  · rcases mem_iterEffects_cases h with h | h | h
    · exact Or.inr (Or.inl ⟨_, _, h⟩)
    · tauto
    · tauto

lemma runThread_not_connected {input : VideoInput} {n : Nat} {e : Effect}
    (h : e ∈ runThread input n) : e.isConnected = false := by
  rcases runThread_effect_shapes h with h | ⟨b, o, h⟩ | h | h | h | h <;> subst h <;> rfl

lemma runThread_not_threadStart {input : VideoInput} {n : Nat} {e : Effect}
    (h : e ∈ runThread input n) : e.isThreadStart = false := by
  rcases runThread_effect_shapes h with h | ⟨b, o, h⟩ | h | h | h | h <;> subst h <;> rfl

lemma sentMessages_initRead (r : ReadResult) : sentMessages (initRead r).1 = [] := by
  obtain ⟨b, fr⟩ := r
  cases fr with
  | none => rfl
  | some f =>
    rcases h0 : f.shape[0]? with _ | v0 <;> rcases h1 : f.shape[1]? with _ | v1 <;>
      simp [initRead, h0, h1, sentMessages, sentOf]

lemma sentMessages_loopEffects (input : VideoInput) (n : Nat) :
    sentMessages (loopEffects input n) = List.replicate n commandMessage := by
  induction n with
  | zero => rfl
  | succ n ih =>
    have hstep : sentMessages (loopEffects input (n + 1)) =
        sentMessages (loopEffects input n) ++ sentMessages (iterEffects (input (n + 1))) := by
      simp [loopEffects, sentMessages]
    have hiter : sentMessages (iterEffects (input (n + 1))) = [commandMessage] := rfl
    rw [hstep, ih, hiter, List.replicate_succ']

lemma sentMessages_runThread (input : VideoInput) (n : Nat) :
    sentMessages (runThread input n) =
      if loopEntered input then List.replicate n commandMessage else [] := by
  unfold runThread loopEntered
  rcases hinit : initRead (input 0) with ⟨effs, o⟩
  have heffs : effs.filterMap sentOf = [] := by
    have h := sentMessages_initRead (input 0)
    rw [hinit] at h
    exact h
  cases o with
  | none => simpa [sentMessages, sentOf] using heffs
  | some hw =>
    have hloop := sentMessages_loopEffects input n
    simp only [sentMessages, List.filterMap] at *
    simp [sentOf, List.filterMap_append, heffs, hloop]

lemma countP_threadStart_runThread (input : VideoInput) (n : Nat) :
    (runThread input n).countP Effect.isThreadStart = 0 :=
  List.countP_eq_zero.mpr fun e he => by simp [runThread_not_threadStart he]

lemma countP_connected_handleEvent (input : VideoInput) (fuel : Nat) (ev : ServerEvent) :
    (handleEvent input fuel ev).countP Effect.isConnected = 0 := by
  cases ev with
  | opened =>
    show (Effect.threadStarted :: runThread input fuel).countP Effect.isConnected = 0
    rw [List.countP_cons]
    have h0 : (runThread input fuel).countP Effect.isConnected = 0 :=
      List.countP_eq_zero.mpr fun e he => by simp [runThread_not_connected he]
    simp [h0, Effect.isConnected]
  | message s => rfl
  | error s => rfl
  | closed c m => rfl

lemma countP_connected_dispatchAll (input : VideoInput) (fuel : Nat)
    (events : List ServerEvent) :
    (dispatchAll input fuel events).countP Effect.isConnected = 0 := by
  induction events with
  | nil => rfl
  | cons ev rest ih =>
    simp [dispatchAll, List.countP_append, ih, countP_connected_handleEvent]

lemma mem_dispatchAll_no_open (input : VideoInput) (fuel : Nat) :
    ∀ events : List ServerEvent, ServerEvent.opened ∉ events →
      ∀ e ∈ dispatchAll input fuel events, ∃ s, e = Effect.printed s := by
  intro events
  induction events with
  | nil => intro _ e he; simp [dispatchAll] at he
  | cons ev rest ih =>
    intro hno e he
    simp only [List.mem_cons, not_or] at hno
    obtain ⟨hne, hrest⟩ := hno
    simp only [dispatchAll, List.mem_append] at he
    rcases he with he | he
    · cases ev with
      | opened => exact absurd rfl hne
      | message s =>
        simp only [handleEvent, on_message, List.mem_cons, List.not_mem_nil, or_false] at he
        exact ⟨s, he⟩
      | error s =>
        simp only [handleEvent, on_error, List.mem_cons, List.not_mem_nil, or_false] at he
        exact ⟨s, he⟩
      | closed c m =>
        simp only [handleEvent, on_close, List.mem_cons, List.not_mem_nil, or_false] at he
        exact ⟨_, he⟩
    · exact ih hrest e he

/-! The claims. -/

/-- C1: every iteration of the `while True` body performs exactly one
`cap.read()` and exactly one `ws.send`, and the first `n` iterations
together perform exactly `n` reads and `n` sends: no iteration sends
zero or more than one command. -/
theorem loop_iteration_reads_once_sends_once (r : ReadResult) (input : VideoInput)
    (n : Nat) :
    (iterEffects r).countP Effect.isRead = 1 ∧
    (iterEffects r).countP Effect.isSent = 1 ∧
    (loopEffects input n).countP Effect.isRead = n ∧
    (loopEffects input n).countP Effect.isSent = n := by
  refine ⟨rfl, rfl, ?_, ?_⟩ <;>
    · induction n with
      | zero => rfl
      | succ n ih => simp [loopEffects, List.countP_append, ih, iterEffects,
          List.countP_cons, Effect.isRead, Effect.isSent]

/-- C2: every message the thread sends over the socket is the one fixed
JSON text built from `angle = 0.0` and `throttle = 0.2`. -/
theorem sent_message_constant_json (input : VideoInput) (n : Nat) (s : String)
    (h : Effect.sent s ∈ runThread input n) :
    s = "\x7b\"angle\":0.0,\"throttle\":0.2,\"drive_mode\":\"user\",\"recording\":false\x7d" := by
  have hs : s = commandMessage := by
    rcases runThread_effect_shapes h with h | ⟨b, o, h⟩ | h | h | h | h <;> simp at h
    exact h
  rw [hs]
  decide

/-- Witness for C2: the sample run at the healthy input sends a message,
and the theorem evaluates it to the literal JSON text. -/
theorem sent_message_constant_json_witness :
    commandMessage =
      "\x7b\"angle\":0.0,\"throttle\":0.2,\"drive_mode\":\"user\",\"recording\":false\x7d" :=
  sent_message_constant_json goodInput 1 commandMessage (by decide)

/-- C3: the sequence of messages sent over the socket is independent of
the video input: two read streams that agree on the first read (frame
contents and success flags may differ everywhere afterwards) yield the
same sent-message sequence over any number of iterations. -/
theorem commands_independent_of_video (i1 i2 : VideoInput) (n : Nat)
    (h : i1 0 = i2 0) :
    sentMessages (runThread i1 n) = sentMessages (runThread i2 n) := by
  rw [sentMessages_runThread, sentMessages_runThread]
  simp only [loopEntered, h]

/-- Witness for C3: two concretely different inputs (all reads succeed
versus every read after the first failing) that agree on read 0 produce
the same sent messages. -/
theorem commands_independent_of_video_witness :
    goodInput 0 = goodThenBadInput 0 ∧
      sentMessages (runThread goodInput 2) = sentMessages (runThread goodThenBadInput 2) :=
  ⟨by decide, commands_independent_of_video goodInput goodThenBadInput 2 (by decide)⟩

/-- C4: once the thread enters the `while True` loop it never
terminates: after any `n` iterations the trace extends by one more
nonempty loop-body trace, and the thread never releases the capture nor
closes the socket. -/
theorem loop_never_terminates (input : VideoInput) (n : Nat)
    (h : loopEntered input = true) :
    runThread input (n + 1) = runThread input n ++ iterEffects (input (n + 1)) ∧
    iterEffects (input (n + 1)) ≠ [] ∧
    Effect.capReleased ∉ runThread input n ∧
    Effect.wsClosed ∉ runThread input n := by
  refine ⟨?_, by simp [iterEffects], ?_, ?_⟩
  · unfold runThread
    unfold loopEntered at h
    rcases hinit : initRead (input 0) with ⟨effs, o⟩
    rw [hinit] at h
    cases o with
    | none => simp at h
    | some hw => simp [loopEffects, List.cons_append, List.append_assoc]
  · intro hmem
    rcases runThread_effect_shapes hmem with h' | ⟨b, o, h'⟩ | h' | h' | h' | h' <;>
      exact Effect.noConfusion h'
  · intro hmem
    rcases runThread_effect_shapes hmem with h' | ⟨b, o, h'⟩ | h' | h' | h' | h' <;>
      exact Effect.noConfusion h'

/-- Witness for C4: the healthy input enters the loop, and the theorem
applies at iteration 0. -/
theorem loop_never_terminates_witness :
    loopEntered goodInput = true ∧
      (runThread goodInput 1 = runThread goodInput 0 ++ iterEffects (goodInput 1) ∧
        iterEffects (goodInput 1) ≠ [] ∧
        Effect.capReleased ∉ runThread goodInput 0 ∧
        Effect.wsClosed ∉ runThread goodInput 0) :=
  ⟨by decide, loop_never_terminates goodInput 0 (by decide)⟩

/-- C5: the callbacks `on_message`, `on_error` and `on_close` only print
(the message, the error, a fixed marker respectively) and perform no
other effect. -/
theorem callbacks_only_print :
    (∀ ws m, on_message ws m = [Effect.printed m]) ∧
    (∀ ws err, on_error ws err = [Effect.printed err]) ∧
    (∀ ws c cm, on_close ws c cm = [Effect.printed "### closed ###"]) :=
  ⟨fun _ _ => rfl, fun _ _ => rfl, fun _ _ _ => rfl⟩

/-- C6: the program establishes its connection by a single `run_forever`
call at startup: whatever events (errors and closes included) the server
delivers, the whole program trace contains exactly one
connection-establishment effect, so no reconnection is ever attempted. -/
theorem single_connection_no_retry (events : List ServerEvent) (input : VideoInput)
    (fuel : Nat) :
    (mainProgram events input fuel).countP Effect.isConnected = 1 := by
  simp [mainProgram, run_forever, List.countP_cons, Effect.isConnected,
    countP_connected_dispatchAll]

/-- C7: the socket address and the video address are built from the same
`host` and `port` constants, and evaluate to the two concrete URLs. -/
theorem addresses_share_host_port :
    socket_address = "ws://" ++ host ++ ":" ++ toString port ++ "/wsDrive" ∧
    video_address = "http://" ++ host ++ ":" ++ toString port ++ "/video" ∧
    socket_address = "ws://donkeycar:8887/wsDrive" ∧
    video_address = "http://donkeycar:8887/video" :=
  ⟨rfl, rfl, by decide, by decide⟩

/-- C8: `on_open` starts exactly one new thread per connection-open
event (its trace contains exactly one thread start, the spawned thread
itself starting none), and no other callback's dispatch ever reads a
frame, opens the capture, sends a command, or starts a thread. -/
theorem single_background_thread_only (ev : ServerEvent) (input : VideoInput)
    (fuel : Nat) (ws : WS) (e : Effect) (hev : ev ≠ ServerEvent.opened)
    (he : e ∈ handleEvent input fuel ev) :
    (on_open ws input fuel).countP Effect.isThreadStart = 1 ∧
    e.isDriveAction = false ∧ e.isThreadStart = false := by
  refine ⟨?_, ?_⟩
  · show (Effect.threadStarted :: runThread input fuel).countP Effect.isThreadStart = 1
    rw [List.countP_cons, countP_threadStart_runThread input fuel]
    rfl
  · cases ev with
    | opened => exact absurd rfl hev
    | message s =>
      simp only [handleEvent, on_message, List.mem_cons, List.not_mem_nil, or_false] at he
      subst he
      exact ⟨rfl, rfl⟩
    | error s =>
      simp only [handleEvent, on_error, List.mem_cons, List.not_mem_nil, or_false] at he
      subst he
      exact ⟨rfl, rfl⟩
    | closed c m =>
      simp only [handleEvent, on_close, List.mem_cons, List.not_mem_nil, or_false] at he
      subst he
      exact ⟨rfl, rfl⟩

/-- Witness for C8: a message event is not the open event, its dispatch
only prints, and `on_open` starts exactly one thread. -/
theorem single_background_thread_only_witness :
    (ServerEvent.message "telemetry" ≠ ServerEvent.opened ∧
        Effect.printed "telemetry" ∈ handleEvent goodInput 1 (ServerEvent.message "telemetry")) ∧
      ((on_open () goodInput 1).countP Effect.isThreadStart = 1 ∧
        (Effect.printed "telemetry").isDriveAction = false ∧
        (Effect.printed "telemetry").isThreadStart = false) :=
  ⟨⟨by decide, by decide⟩,
    single_background_thread_only (ServerEvent.message "telemetry") goodInput 1 ()
      (Effect.printed "telemetry") (by decide) (by decide)⟩

/-- C9: the success flag of `cap.read()` is never checked and the first
frame's shape is accessed unconditionally: if the first read yields no
frame, the thread raises on the attribute access and dies before any
command is sent; and the loop-entry outcome ignores the flag entirely. -/
theorem unchecked_first_read_kills_thread (input : VideoInput) (n : Nat) (s : String)
    (b b' : Bool) (fr : Option Frame) (h : (input 0).2 = none) :
    Effect.raisedAttrError ∈ runThread input n ∧
    Effect.sent s ∉ runThread input n ∧
    (initRead (b, fr)).2 = (initRead (b', fr)).2 := by
  refine ⟨?_, ?_, ?_⟩
  · simp [runThread, initRead, h]
  · simp [runThread, initRead, h]
  · cases fr with
    | none => rfl
    | some f =>
      rcases h0 : f.shape[0]? with _ | v0 <;> rcases h1 : f.shape[1]? with _ | v1 <;>
        simp [initRead, h0, h1]

/-- Witness for C9: the input whose first read fails makes the thread
raise before sending anything. -/
theorem unchecked_first_read_kills_thread_witness :
    (badInput 0).2 = none ∧
      (Effect.raisedAttrError ∈ runThread badInput 2 ∧
        Effect.sent commandMessage ∉ runThread badInput 2 ∧
        (initRead (true, some okFrame)).2 = (initRead (false, some okFrame)).2) :=
  ⟨rfl, unchecked_first_read_kills_thread badInput 2 commandMessage true false
    (some okFrame) rfl⟩

/-- C10: the video capture is opened only inside the thread spawned by
`on_open` (it is the very first effect of that thread), and while the
server has not delivered the open event, the program trace contains no
capture-open, no frame read and no command send. -/
theorem capture_opened_only_after_open (events : List ServerEvent) (input : VideoInput)
    (fuel : Nat) (e : Effect) (h1 : ServerEvent.opened ∉ events)
    (h2 : e ∈ run_forever events input fuel) :
    e.isDriveAction = false ∧
    (runThread input fuel).head? = some (Effect.capOpened video_address) := by
  refine ⟨?_, rfl⟩
  simp only [run_forever, List.mem_cons] at h2
  rcases h2 with h2 | h2
  · subst h2; rfl
  · obtain ⟨s, hs⟩ := mem_dispatchAll_no_open input fuel events h1 e h2
    subst hs; rfl

/-- Witness for C10: before any open event (a message and a close are
delivered), the only effects are the connection itself and prints. -/
theorem capture_opened_only_after_open_witness :
    (ServerEvent.opened ∉ [ServerEvent.message "m", ServerEvent.closed none none] ∧
        Effect.connected socket_address ∈
          run_forever [ServerEvent.message "m", ServerEvent.closed none none] goodInput 1) ∧
      ((Effect.connected socket_address).isDriveAction = false ∧
        (runThread goodInput 1).head? = some (Effect.capOpened video_address)) :=
  ⟨⟨by decide, by decide⟩,
    capture_opened_only_after_open [ServerEvent.message "m", ServerEvent.closed none none]
      goodInput 1 (Effect.connected socket_address) (by decide) (by decide)⟩

end Car
